import Mathlib

/-!
# Thea: `BestFitSphere3` point accumulation and the `MeshFeatures` driver

A shallow embedding of

* `Code/Source/Algorithms/BestFitSphere3.hpp`: the inline member templates
  `addPoints`, `addMesh` and `addMeshGroup` and the private data members of the
  class;
* `Code/Source/Tools/MeshFeatures/MeshFeatures.cpp`: `main` and the three
  `compute...` helpers.

A finite scalar (`Real`, `double`) is embedded as the rational number it denotes;
infinities and NaN are outside the embedding. The accumulator never inspects a
coordinate. The driver multiplies and adds `double` values: each such operation
returns the rounding of its exact result, and the rounding is a parameter
(`Externals.round`).
-/

namespace Thea

/-- Modelled from the spec: `Vector3` (`Vector3.hpp` is not among the sources) is a point, a 3D
coordinate of three scalars with no identity beyond its position. -/
structure Vector3 where
  x : Rat
  y : Rat
  z : Rat
deriving DecidableEq, Repr

/-- The zero vector, `Vector3(0)`. -/
def Vector3.zero : Vector3 := ⟨0, 0, 0⟩

/-- Modelled from the spec: `Ball3` (`Ball3.hpp` is not among the sources) is the sphere, a
centre and a radius. -/
structure Ball3 where
  center : Vector3
  radius : Rat
deriving DecidableEq, Repr

namespace Algorithms

/-- Modelled from the spec: `PointTraitsN<T, 3>` (`PointTraitsN.hpp`, which is not among the
sources) is the "has 3D position" capability: a type from whose elements a 3D coordinate can
be extracted by `getPosition`. -/
class PointTraitsN (α : Type) where
  getPosition : α → Vector3

/-- Modelled from the spec: a bare 3D coordinate is position-bearing, and its position is
itself. -/
instance : PointTraitsN Vector3 where
  getPosition := fun p => p

/-- Modelled from the spec: a mesh vertex (the mesh headers are not among the sources), as
far as the listed code reads one: the position that `vi->getPosition()` returns, and the
vertex normal. -/
structure Vertex where
  position : Vector3
  normal : Vector3
deriving DecidableEq, Repr

/-- The member `getPosition()` of a vertex. -/
def Vertex.getPosition (v : Vertex) : Vector3 := v.position

/-- Modelled from the spec: a vertex is position-bearing, and its position is the one its
member `getPosition()` returns. -/
instance : PointTraitsN Vertex where
  getPosition := Vertex.getPosition

/-- Modelled from the spec: a mesh (the template parameter `MeshT`) exposes iteration over its
vertices; here the range `verticesBegin() .. verticesEnd()`, in iteration order. -/
structure Mesh where
  vertices : List Vertex
deriving Repr

/-- Modelled from the spec: a mesh group (`Graphics::MeshGroup<MeshT>`, `MeshGroup.hpp` is
not among the sources) exposes iteration over the meshes it owns and over its child groups;
here the ranges `meshesBegin() .. meshesEnd()` and `childrenBegin() .. childrenEnd()`, each
in iteration order. A parent owns its children exclusively, so a group is a finite tree. -/
inductive MeshGroup where
  | mk (meshes : List Mesh) (children : List MeshGroup) : MeshGroup

/-- The data members of `BestFitSphere3` (lines 115-118). -/
structure BestFitSphere3 where
  points : List Vector3
  eps : Rat
  ball : Ball3
  updated : Bool
deriving DecidableEq, Repr

namespace BestFitSphere3

/-- Modelled from the spec: the body of `addPoint` is in `BestFitSphere3.cpp`, which is not
among the sources; the header declares it as "Add a point to the set" (line 64) and the spec
gives it as an append to the point set, without deduplication, that invalidates the cache. -/
def addPoint (self : BestFitSphere3) (point : Vector3) : BestFitSphere3 :=
  { self with points := self.points ++ [point], updated := false }

/-- The member template `addPoints(points_begin, points_end)` (lines 68-72): one `addPoint` of
`PointTraitsN::getPosition(*pi)` per element of the range, in iteration order. -/
def addPoints {α : Type} [PointTraitsN α] (self : BestFitSphere3) (points : List α) :
    BestFitSphere3 :=
  points.foldl (fun s pi => s.addPoint (PointTraitsN.getPosition pi)) self

/-- The member template `addMesh(mesh)` (lines 75-79): one `addPoint` of `vi->getPosition()`
per vertex of the mesh, in iteration order. -/
def addMesh (self : BestFitSphere3) (mesh : Mesh) : BestFitSphere3 :=
  mesh.vertices.foldl (fun s vi => s.addPoint vi.getPosition) self

mutual
/-- The member template `addMeshGroup(mesh_group)` (lines 82-91): `addMesh` of every mesh of
the group, then `addMeshGroup` of every child. -/
def addMeshGroup (self : BestFitSphere3) : MeshGroup → BestFitSphere3
  | .mk meshes children => addChildren (meshes.foldl addMesh self) children
/-- The second loop of `addMeshGroup` (lines 88-90), over the children that remain. -/
def addChildren (self : BestFitSphere3) : List MeshGroup → BestFitSphere3
  | [] => self
  | ci :: rest => addChildren (addMeshGroup self ci) rest
end

end BestFitSphere3

/-! ### The claims' words about a mesh-group hierarchy -/

/-- The vertex positions of one mesh, in vertex iteration order. -/
def meshPositions (m : Mesh) : List Vector3 :=
  m.vertices.map Vertex.getPosition

mutual
/-- The pre-order sequence of vertex positions of a group: the vertices of the meshes the
group owns, then the sequence of each child in turn. -/
def preorder : MeshGroup → List Vector3
  | .mk meshes children => meshes.flatMap meshPositions ++ preorderAll children
/-- The pre-order sequences of a list of groups, one after the other. -/
def preorderAll : List MeshGroup → List Vector3
  | [] => []
  | g :: gs => preorder g ++ preorderAll gs
end

mutual
/-- The sum of the vertex counts of all meshes at all depths of a group. -/
def vertexCount : MeshGroup → Nat
  | .mk meshes children => (meshes.map fun m => m.vertices.length).sum + vertexCountAll children
/-- The sum of `vertexCount` over a list of groups. -/
def vertexCountAll : List MeshGroup → Nat
  | [] => 0
  | g :: gs => vertexCount g + vertexCountAll gs
end

mutual
/-- The number of vertex occurrences with position `v` in the meshes at all depths of a
group. -/
def occurrences (v : Vector3) : MeshGroup → Nat
  | .mk meshes children =>
    (meshes.map fun m => (m.vertices.filter fun w => w.getPosition = v).length).sum
      + occurrencesAll v children
/-- The sum of `occurrences v` over a list of groups. -/
def occurrencesAll (v : Vector3) : List MeshGroup → Nat
  | [] => 0
  | g :: gs => occurrences v g + occurrencesAll v gs
end

end Algorithms

/-! ### The `MeshFeatures` driver -/

namespace Tools

open Algorithms

/-- Modelled from the spec: `beginsWith(test, pattern)` is declared in `StringAlg.hpp`, which
is not among the sources; by its name and by the usage text of `main` it tells whether
`test` starts with `pattern`. -/
def beginsWith (test pattern : String) : Bool :=
  pattern.data.isPrefixOf test.data

/-- The member `std::string::substr(pos)`: the characters from position `pos` on. -/
def substr (s : String) (pos : Nat) : String :=
  String.mk (s.data.drop pos)

/-- The triangle and the point that `closestElement` finds for a query point: the closest
point `cp`, the face normal, the three vertex normals and the barycentric coordinates of
`cp` in the triangle. -/
structure Closest where
  cp : Vector3
  normal : Vector3
  n0 : Vector3
  n1 : Vector3
  n2 : Vector3
  b : Vector3
deriving Repr

/-- What `main` uses and the listed sources do not define: the conversions of the C
library's `sscanf`, the file system, and the geometric algorithms of the other headers. -/
structure Externals where
  /-- The `%ld` conversion: the value read and the input left, `none` when none is read. -/
  scanLong : List Char → Option (Int × List Char)
  /-- The `%lf` conversion: the value read, `none` when none is read. -/
  scanDouble : List Char → Option Rat
  /-- Call `mg.load(path)`: the group loaded, `none` when it throws. -/
  load : String → Option MeshGroup
  /-- The points file read line by line (lines 94-125): `none` when the file does not open or
  a line does not hold three numbers. -/
  readPoints : String → Option (List Vector3)
  /-- Whether `ofstream out(path)` opens. -/
  openOutput : String → Bool
  /-- Call `kdtree.closestElement<MetricL2>(p, -1, NULL, &cp)` on the kd-tree of the group:
  `none` when the element index is negative. -/
  closestElement : MeshGroup → Vector3 → Option Closest
  /-- Call `ShapeDiameter::compute(position, normal)`. -/
  shapeDiameter : MeshGroup → Vector3 → Vector3 → Rat
  /-- Call `Curvature::computeProjectedCurvature(position, normal)`. -/
  projectedCurvature : MeshGroup → Vector3 → Vector3 → Rat
  /-- Call `DistanceHistogram::compute(position, num_bins, row, max_distance)`: the value it
  leaves in entry `k` of the row. -/
  distanceHistogram : MeshGroup → Vector3 → Int → Rat → Nat → Rat
  /-- The rounding of `double` arithmetic: the `double` that `*` or `+` returns when the
  exact product or sum is `x`. -/
  round : Rat → Rat
  /-- The product `operator*` of a scalar and a `Vector3`. -/
  scaleVector : Rat → Vector3 → Vector3
  /-- The sum `operator+` of two `Vector3`. -/
  addVector : Vector3 → Vector3 → Vector3

/-- The function `smoothNormal(tri, p)` (lines 28-39): `b[0] * n0 + b[1] * n1 + b[2] * n2`
for the barycentric coordinates `b` of `p`. -/
def smoothNormal (ext : Externals) (c : Closest) : Vector3 :=
  ext.addVector
    (ext.addVector (ext.scaleVector c.b.x c.n0) (ext.scaleVector c.b.y c.n1))
    (ext.scaleVector c.b.z c.n2)

/-- The function `computeSDF` (lines 301-316): `values` resized to the number of positions,
entry `i` the shape diameter at `positions[i]`, `normals[i]`; always returns `true`. -/
def computeSDF (ext : Externals) (kdtree : MeshGroup) (positions normals : List Vector3) :
    Bool × List Rat :=
  (true, (List.range positions.length).map fun i =>
    ext.shapeDiameter kdtree (positions.getD i Vector3.zero) (normals.getD i Vector3.zero))

/-- The function `computeProjectedCurvatures` (lines 318-333). -/
def computeProjectedCurvatures (ext : Externals) (mg : MeshGroup)
    (positions normals : List Vector3) : Bool × List Rat :=
  (true, (List.range positions.length).map fun i =>
    ext.projectedCurvature mg (positions.getD i Vector3.zero) (normals.getD i Vector3.zero))

/-- Modelled from the spec: `Matrix<double, ROW_MAJOR>` (`Matrix.hpp` is not among the
sources), as `main` and `computeDistanceHistograms` use one: the shape that `resize` sets
and `numRows()`, `numColumns()` return, and the entries. -/
structure Matrix where
  numRows : Int
  numColumns : Int
  entry : Nat → Nat → Rat

/-- The function `computeDistanceHistograms` (lines 335-350): `values` resized to one row
per position and `num_bins` columns, row `i` the histogram at `positions[i]`; always returns
`true`. -/
def computeDistanceHistograms (ext : Externals) (mg : MeshGroup) (positions : List Vector3)
    (num_bins : Int) (max_distance : Rat) : Bool × Matrix :=
  (true,
   { numRows := positions.length
     numColumns := num_bins
     entry := fun i k =>
       ext.distanceHistogram mg (positions.getD i Vector3.zero) num_bins max_distance k })

/-- The call `sscanf(feat.c_str(), "dh=%ld,%lf", &num_bins, &max_distance)` (line 202): the
number of conversions made (anything below 1 when the first one fails) and the values they
store; a variable that is not stored keeps the value the caller passes. -/
def scanDh (ext : Externals) (feat : String) (num_bins : Int) (max_distance : Rat) :
    Int × Int × Rat :=
  if beginsWith feat "dh=" then
    match ext.scanLong (feat.data.drop 3) with
    | none => (0, num_bins, max_distance)
    | some (n, rest) =>
      match rest with
      | ',' :: more =>
        match ext.scanDouble more with
        | some d => (2, n, d)
        | none => (1, n, max_distance)
      | _ => (1, n, max_distance)
  else (0, num_bins, max_distance)

/-- The call `sscanf(feat.c_str(), "scale=%lf", &scale_factor)` (line 244): the number of
conversions made and the value stored. -/
def scanScale (ext : Externals) (feat : String) (scale_factor : Rat) : Int × Rat :=
  if beginsWith feat "scale=" then
    match ext.scanDouble (feat.data.drop 6) with
    | some d => (1, d)
    | none => (0, scale_factor)
  else (0, scale_factor)

/-- How a run of `main` ends: a `return` with a value, or a failed `alwaysAssertM`. -/
inductive Exit where
  | code (value : Int) : Exit
  | assertion (message : String) : Exit
deriving DecidableEq, Repr

/-- The local variables of `main` that the feature loop updates (lines 161-167). -/
structure FeatureState where
  features : List (List Rat)
  feat_names : List String
  shift_to_01 : Bool
  abs_values : Bool
  scale : Bool
  scale_factor : Rat

/-- The variables as `main` initialises them: one empty feature vector per position. -/
def FeatureState.init (n : Nat) : FeatureState :=
  { features := List.replicate n []
    feat_names := []
    shift_to_01 := false
    abs_values := false
    scale := false
    scale_factor := 1 }

/-- The statement `feat_names.push_back(feat)` that ends a pass over a supported option
(line 258). -/
def pushName (st : FeatureState) (feat : String) : FeatureState :=
  { st with feat_names := st.feat_names ++ [feat] }

/-- The loops `features[j].push_back(values[j])` (lines 183-184, 194-195); `features` holds
one vector per position (line 161), so `j` runs over its entries. -/
def pushValues (features : List (List Rat)) (values : List Rat) : List (List Rat) :=
  (List.range features.length).map fun j => features.getD j [] ++ [values.getD j 0]

/-- The loop `features[j].insert(features[j].end(), row_start, row_start + num_bins)`
(lines 228-232), `row_start` the address of `values(j, 0)`; `j` runs over the entries of
`features`, one per position. -/
def insertRows (features : List (List Rat)) (values : Matrix) (num_bins : Int) :
    List (List Rat) :=
  (List.range features.length).map fun j =>
    features.getD j [] ++ (List.range num_bins.toNat).map fun k => values.entry j k

/-- One pass of the feature loop (lines 171-258) over the argument `arg`. -/
def featureStep (ext : Externals) (mg : MeshGroup)
    (positions face_normals smooth_normals : List Vector3) (st : FeatureState) (arg : String) :
    Except Exit FeatureState :=
  if !beginsWith arg "--" then .ok st
  else
    let feat := substr arg 2
    if feat = "sdf" then
      let r := computeSDF ext mg positions face_normals
      if !r.1 then .error (.code (-1))
      else if r.2.length ≠ positions.length then
        .error (.assertion "Number of SDF values doesn't match number of points")
      else .ok (pushName { st with features := pushValues st.features r.2 } feat)
    else if feat = "projcurv" then
      let r := computeProjectedCurvatures ext mg positions smooth_normals
      if !r.1 then .error (.code (-1))
      else if r.2.length ≠ positions.length then
        .error (.assertion "Number of projected curvatures doesn't match number of points")
      else .ok (pushName { st with features := pushValues st.features r.2 } feat)
    else if beginsWith feat "dh=" then
      let scanned := scanDh ext feat 0 0
      let num_params := scanned.1
      let num_bins := scanned.2.1
      if num_params < 1 then .error (.code (-1))
      else
        let max_distance := if num_params = 1 then -1 else scanned.2.2
        if num_bins ≤ 0 then .error (.code (-1))
        else
          let r := computeDistanceHistograms ext mg positions num_bins max_distance
          if !r.1 then .error (.code (-1))
          else if r.2.numRows ≠ positions.length then
            .error (.assertion "Number of distance histograms doesn't match number of points")
          else if !(positions.isEmpty || decide (r.2.numColumns = num_bins)) then
            .error (.assertion "Number of distance histogram bins doesn't match input parameter")
          else .ok (pushName { st with features := insertRows st.features r.2 num_bins } feat)
    else if feat = "shift01" then .ok (pushName { st with shift_to_01 := true } feat)
    else if feat = "abs" then .ok (pushName { st with abs_values := true } feat)
    else if beginsWith feat "scale=" then
      let scanned := scanScale ext feat st.scale_factor
      if scanned.1 = 1 then
        .ok (pushName { st with scale := true, scale_factor := scanned.2 } feat)
      else .error (.code (-1))
    else .ok st

/-- The feature loop (lines 169-259) over the arguments that remain; a `return` or a failed
assertion inside a pass ends it. -/
def featureLoop (ext : Externals) (mg : MeshGroup)
    (positions face_normals smooth_normals : List Vector3) :
    FeatureState → List String → Except Exit FeatureState
  | st, [] => .ok st
  | st, arg :: rest =>
    match featureStep ext mg positions face_normals smooth_normals st arg with
    | .error e => .error e
    | .ok st1 => featureLoop ext mg positions face_normals smooth_normals st1 rest

/-- The value written for the feature value `f` (lines 284-290): `f *= scale_factor`, then
`f = 0.5 * (1.0 + f)`, then `f = fabs(f)`, each when its option was given. A product and a
sum of `double` values is the rounding of the exact one; `fabs` is exact. -/
def outputValue (ext : Externals) (st : FeatureState) (f : Rat) : Rat :=
  let f1 := if st.scale then ext.round (f * st.scale_factor) else f
  let f2 := if st.shift_to_01 then ext.round ((1 / 2) * ext.round (1 + f1)) else f1
  if st.abs_values then |f2| else f2

/-- The output loop (lines 278-294): per feature vector, the query point `pts[i]` and the
values written after it. -/
def outputRows (ext : Externals) (st : FeatureState) (pts : List Vector3) :
    List (Vector3 × List Rat) :=
  (List.range st.features.length).map fun i =>
    (pts.getD i Vector3.zero, (st.features.getD i []).map (outputValue ext st))

/-- What a run of `main` does that can be seen from outside, in the order it does it. -/
inductive Event where
  | usage (program : String) : Event
  | loadMesh (path : String) : Event
  | readPoints (path : String) : Event
  | computed (count : Nat) (names : List String) : Event
  | openOutput (path : String) : Event
  | wrote (rows : List (Vector3 × List Rat)) : Event
deriving Repr

/-- The local variables of the first loop of `main` (lines 51-55). -/
structure Positional where
  mesh_path : String
  pts_path : String
  out_path : String
  curr_opt : Nat
deriving DecidableEq, Repr

/-- The variables as declared: three empty strings and `curr_opt = 0`. -/
def Positional.init : Positional :=
  { mesh_path := "", pts_path := "", out_path := "", curr_opt := 0 }

/-- The first loop of `main` (lines 56-71) over the arguments that remain: an argument that
does not begin with "--" is stored by the `switch` on `curr_opt`, `curr_opt` is incremented,
and the loop is left once `curr_opt >= 3`. -/
def parsePositional : Positional → List String → Positional
  | st, [] => st
  | st, arg :: rest =>
    if !beginsWith arg "--" then
      let st1 :=
        match st.curr_opt with
        | 0 => { st with mesh_path := arg }
        | 1 => { st with pts_path := arg }
        | 2 => { st with out_path := arg }
        | _ => st
      let st2 := { st1 with curr_opt := st1.curr_opt + 1 }
      if st2.curr_opt ≥ 3 then st2 else parsePositional st2 rest
    else parsePositional st rest

/-- The snapping loop of `main` (lines 140-156) over the query points that remain: the
closest point, the face normal and the smooth normal of each, `none` when a point has no
nearest neighbour. -/
def snap (ext : Externals) (mg : MeshGroup) :
    List Vector3 → Option (List (Vector3 × Vector3 × Vector3))
  | [] => some []
  | p :: rest =>
    match ext.closestElement mg p with
    | none => none
    | some c =>
      match snap ext mg rest with
      | none => none
      | some more => some ((c.cp, c.normal, smoothNormal ext c) :: more)

/-- The function `main` from line 86 on, for the three paths that the first loop found. -/
def run (ext : Externals) (mesh_path pts_path out_path : String) (argv : List String) :
    List Event × Exit :=
  match ext.load mesh_path with
  | none => ([.loadMesh mesh_path], .code (-1))
  | some mg =>
    match ext.readPoints pts_path with
    | none => ([.loadMesh mesh_path, .readPoints pts_path], .code (-1))
    | some pts =>
      match snap ext mg pts with
      | none => ([.loadMesh mesh_path, .readPoints pts_path], .code 0)
      | some snapped =>
        let positions := snapped.map fun s => s.1
        let face_normals := snapped.map fun s => s.2.1
        let smooth_normals := snapped.map fun s => s.2.2
        match featureLoop ext mg positions face_normals smooth_normals
            (FeatureState.init positions.length) argv.tail with
        | .error e => ([.loadMesh mesh_path, .readPoints pts_path], e)
        | .ok st =>
          let report := Event.computed st.feat_names.length st.feat_names
          if !ext.openOutput out_path then
            ([.loadMesh mesh_path, .readPoints pts_path, report, .openOutput out_path],
             .code (-1))
          else
            ([.loadMesh mesh_path, .readPoints pts_path, report, .openOutput out_path,
              .wrote (outputRows ext st pts)], .code 0)

/-- The function `main` (lines 48-299) on the argument vector `argv`, program name first. -/
def main (ext : Externals) (argv : List String) : List Event × Exit :=
  let st := parsePositional Positional.init argv.tail
  if st.curr_opt < 3 then ([.usage (argv.headD "")], .code 0)
  else run ext st.mesh_path st.pts_path st.out_path argv

/-- The arguments after the program name that do not begin with "--", in command-line
order. -/
def positionals (argv : List String) : List String :=
  argv.tail.filter fun a => !beginsWith a "--"

/-- The value that `sscanf` stores in `num_bins` for the option `arg` of the form
`--dh=<num-bins>[,<max_distance>]`. -/
def numBins (ext : Externals) (arg : String) : Int :=
  (scanDh ext (substr arg 2) 0 0).2.1

/-- The number of `--sdf` options plus the number of `--projcurv` options plus the sum of
`num_bins` over the `--dh=` options of an argument list. -/
def featureCount (ext : Externals) (args : List String) : Nat :=
  args.count "--sdf" + args.count "--projcurv"
    + ((args.filter fun a => beginsWith a "--dh=").map fun a => (numBins ext a).toNat).sum

/-- The factor that the last `--scale=` option of an argument list gives: what `%lf` reads
after `--scale=`; `none` when the list has no such option. -/
def scaleFactor (ext : Externals) (args : List String) : Option Rat :=
  match (args.filter fun a => beginsWith a "--scale=").getLast? with
  | none => none
  | some a => ext.scanDouble (a.data.drop 8)

/-- The feature value `f` after scaling: the `double` product of `f` and the factor of the
last `--scale=` option, and `f` itself when there is no such option. -/
def scaledValue (ext : Externals) (args : List String) (f : Rat) : Rat :=
  match scaleFactor ext args with
  | none => f
  | some s => ext.round (f * s)

/-! ### A fixture for the examples -/

/-- A rounding for the examples: to the nearest multiple of `2 ^ -52`, the spacing of the
`double` values between `1` and `2`; a tie goes up. -/
def sampleRound (x : Rat) : Rat :=
  (⌊x * 2 ^ 52 + 1 / 2⌋ : Int) / 2 ^ 52

/-- A group of one triangle-shaped mesh. -/
def sampleGroup : MeshGroup :=
  .mk [⟨[⟨⟨0, 0, 0⟩, ⟨0, 0, 1⟩⟩, ⟨⟨1, 0, 0⟩, ⟨0, 0, 1⟩⟩, ⟨⟨0, 1, 0⟩, ⟨0, 0, 1⟩⟩]⟩] []

/-- Externals for the examples: every file opens, the points file holds the one point
`(0, 0, 0)`, every shape diameter is `1`, every projected curvature is `-1`, every
histogram entry is `0`, the scanners read the literals `2`, `3` and `0.5` only, `double`
results are rounded by `sampleRound`, and the vector operations are exact. -/
def sampleExternals : Externals :=
  { scanLong := fun cs =>
      match cs with
      | '2' :: rest => if rest.head? = some ',' ∨ rest = [] then some (2, rest) else none
      | _ => none
    scanDouble := fun cs =>
      if cs = ['3'] then some 3 else if cs = ['0', '.', '5'] then some (1 / 2) else none
    load := fun _ => some sampleGroup
    readPoints := fun _ => some [⟨0, 0, 0⟩]
    openOutput := fun _ => true
    closestElement := fun _ p =>
      some ⟨p, ⟨0, 0, 1⟩, ⟨0, 0, 1⟩, ⟨0, 0, 1⟩, ⟨0, 0, 1⟩, ⟨1, 0, 0⟩⟩
    shapeDiameter := fun _ _ _ => 1
    projectedCurvature := fun _ _ _ => -1
    distanceHistogram := fun _ _ _ _ _ => 0
    round := sampleRound
    scaleVector := fun s v => ⟨s * v.x, s * v.y, s * v.z⟩
    addVector := fun v w => ⟨v.x + w.x, v.y + w.y, v.z + w.z⟩ }

/-- The one query point of the examples after snapping: the closest point, the face normal
and the smooth normal. -/
def sampleSnapped : List (Vector3 × Vector3 × Vector3) :=
  [(⟨0, 0, 0⟩, ⟨0, 0, 1⟩,
    smoothNormal sampleExternals ⟨⟨0, 0, 0⟩, ⟨0, 0, 1⟩, ⟨0, 0, 1⟩, ⟨0, 0, 1⟩, ⟨0, 0, 1⟩, ⟨1, 0, 0⟩⟩)]

/-- A command line with the projected curvature as its feature, halved by `--scale=0.5` and
shifted by `--shift01`. -/
def shiftArgv : List String :=
  ["MeshFeatures", "mesh.off", "--projcurv", "pts.txt", "--scale=0.5", "out.txt", "--shift01"]

/-- The variables of `main` after the feature loop over `shiftArgv`, for one query point
whose projected curvature is `-1`. -/
def shiftState : FeatureState :=
  { features := [[-1]]
    feat_names := ["projcurv", "scale=0.5", "shift01"]
    shift_to_01 := true
    abs_values := false
    scale := true
    scale_factor := 1 / 2 }

/-- The arguments after the program name of a command line with a histogram of two bins and
a shape diameter. -/
def histogramArgs : List String :=
  ["mesh.off", "--dh=2", "pts.txt", "--sdf", "out.txt", "--abs"]

/-- The variables of `main` after the feature loop over `histogramArgs`, for one query
point. -/
def histogramState : FeatureState :=
  { features := [[0, 0, 1]]
    feat_names := ["dh=2", "sdf", "abs"]
    shift_to_01 := false
    abs_values := true
    scale := false
    scale_factor := 1 }

end Tools

namespace Algorithms

/-- An engine whose cache is valid (`updated = true`): the state an accessor leaves behind,
here with one stored point and the sphere of radius `0` around it. -/
def cleanEngine : BestFitSphere3 :=
  { points := [⟨5, 5, 5⟩], eps := 1 / 1000, ball := ⟨⟨5, 5, 5⟩, 0⟩, updated := true }

/-- A group hierarchy without a vertex: one empty mesh and one empty child group. -/
def emptyGroup : MeshGroup :=
  .mk [⟨[]⟩] [.mk [] []]

end Algorithms

/-! ### Lemmas on the accumulator -/

namespace Algorithms

namespace BestFitSphere3

theorem addPoints_nil {α : Type} [PointTraitsN α] (e : BestFitSphere3) :
    e.addPoints ([] : List α) = e := rfl

theorem addPoints_cons {α : Type} [PointTraitsN α] (e : BestFitSphere3) (a : α) (s : List α) :
    e.addPoints (a :: s) = (e.addPoint (PointTraitsN.getPosition a)).addPoints s := rfl

theorem addPoints_append {α : Type} [PointTraitsN α] (e : BestFitSphere3) (s t : List α) :
    e.addPoints (s ++ t) = (e.addPoints s).addPoints t := by
  simp [addPoints, List.foldl_append]

theorem addPoints_points {α : Type} [PointTraitsN α] (s : List α) (e : BestFitSphere3) :
    (e.addPoints s).points = e.points ++ s.map PointTraitsN.getPosition := by
  induction s generalizing e with
  | nil => simp [addPoints_nil]
  | cons a s ih => rw [addPoints_cons, ih]; simp [addPoint]

theorem addPoints_eq {α : Type} [PointTraitsN α] (s : List α) (e : BestFitSphere3) :
    e.addPoints s =
      if s.isEmpty then e
      else { e with points := e.points ++ s.map PointTraitsN.getPosition, updated := false } := by
  induction s generalizing e with
  | nil => rfl
  | cons a s ih =>
    rw [addPoints_cons, ih]
    cases s <;> simp [addPoint]

theorem addPoints_map_position (vs : List Vertex) (e : BestFitSphere3) :
    e.addPoints (vs.map Vertex.getPosition) = e.addPoints vs := by
  induction vs generalizing e with
  | nil => rfl
  | cons v vs ih => exact ih _

theorem addMesh_eq_addPoints (e : BestFitSphere3) (m : Mesh) :
    e.addMesh m = e.addPoints m.vertices := rfl

theorem addMesh_eq_positions (e : BestFitSphere3) (m : Mesh) :
    e.addMesh m = e.addPoints (meshPositions m) :=
  (addPoints_map_position m.vertices e).symm

theorem foldl_addMesh (meshes : List Mesh) (e : BestFitSphere3) :
    meshes.foldl addMesh e = e.addPoints (meshes.flatMap meshPositions) := by
  induction meshes generalizing e with
  | nil => rfl
  | cons m ms ih =>
    rw [List.foldl_cons, ih, addMesh_eq_positions, List.flatMap_cons, addPoints_append]

mutual
theorem addMeshGroup_eq_addPoints :
    ∀ (g : MeshGroup) (e : BestFitSphere3), e.addMeshGroup g = e.addPoints (preorder g)
  | .mk meshes children, e => by
    rw [addMeshGroup, preorder, addChildren_eq_addPoints children, foldl_addMesh,
      addPoints_append]
theorem addChildren_eq_addPoints :
    ∀ (gs : List MeshGroup) (e : BestFitSphere3), e.addChildren gs = e.addPoints (preorderAll gs)
  | [], e => by rw [addChildren, preorderAll]; rfl
  | g :: gs, e => by
    rw [addChildren, preorderAll, addChildren_eq_addPoints gs, addMeshGroup_eq_addPoints g,
      addPoints_append]
end

end BestFitSphere3

theorem length_meshPositions (m : Mesh) : (meshPositions m).length = m.vertices.length := by
  simp [meshPositions]

theorem count_meshPositions (v : Vector3) (m : Mesh) :
    (meshPositions m).count v = (m.vertices.filter fun w => w.getPosition = v).length := by
  unfold meshPositions
  induction m.vertices with
  | nil => rfl
  | cons w ws ih =>
    by_cases h : w.getPosition = v
    · simp [List.count_cons, List.filter_cons, h, ih]
    · simp [List.count_cons, List.filter_cons, h, ih]

mutual
theorem length_preorder : ∀ g : MeshGroup, (preorder g).length = vertexCount g
  | .mk meshes children => by
    rw [preorder, vertexCount, List.length_append, length_preorderAll children,
      List.length_flatMap]
    congr 2
    exact List.map_congr_left fun m _ => length_meshPositions m
theorem length_preorderAll : ∀ gs : List MeshGroup, (preorderAll gs).length = vertexCountAll gs
  | [] => by rw [preorderAll, vertexCountAll]; rfl
  | g :: gs => by
    rw [preorderAll, vertexCountAll, List.length_append, length_preorder g,
      length_preorderAll gs]
end

mutual
theorem count_preorder (v : Vector3) : ∀ g : MeshGroup, (preorder g).count v = occurrences v g
  | .mk meshes children => by
    rw [preorder, occurrences, List.count_append, count_preorderAll v children,
      List.count_flatMap]
    congr 2
    exact List.map_congr_left fun m _ => count_meshPositions v m
theorem count_preorderAll (v : Vector3) :
    ∀ gs : List MeshGroup, (preorderAll gs).count v = occurrencesAll v gs
  | [] => by rw [preorderAll, occurrencesAll]; rfl
  | g :: gs => by
    rw [preorderAll, occurrencesAll, List.count_append, count_preorder v g,
      count_preorderAll v gs]
end

/-! ### The accumulator: claims -/

/-- C1: `addMeshGroup(g)` leaves the points already stored as a prefix and appends to them
exactly the pre-order sequence of vertex positions of `g`: the vertices of the meshes that `g`
owns, mesh by mesh, then the sequence of each child group in turn. It makes the calls of
`addPoint` that `addPoints` makes over that sequence. -/
theorem addMeshGroup_appends_preorder (e : BestFitSphere3) (g : MeshGroup) :
    (e.addMeshGroup g).points = e.points ++ preorder g ∧
    e.addMeshGroup g = e.addPoints (preorder g) := by
  refine ⟨?_, BestFitSphere3.addMeshGroup_eq_addPoints g e⟩
  rw [BestFitSphere3.addMeshGroup_eq_addPoints, BestFitSphere3.addPoints_points]
  simp [PointTraitsN.getPosition]

/-- C2: the points that `addMeshGroup(g)` appends are as many as the vertices of all meshes at
all depths of `g`, and every position `v` occurs among them as often as there are vertices
with position `v` in the hierarchy. -/
theorem addMeshGroup_counts_every_vertex (e : BestFitSphere3) (g : MeshGroup) :
    ∃ appended : List Vector3,
      (e.addMeshGroup g).points = e.points ++ appended ∧
      appended.length = vertexCount g ∧
      ∀ v : Vector3, appended.count v = occurrences v g := by
  refine ⟨preorder g, ?_, length_preorder g, fun v => count_preorder v g⟩
  rw [BestFitSphere3.addMeshGroup_eq_addPoints, BestFitSphere3.addPoints_points]
  simp [PointTraitsN.getPosition]

/-- C3: after `addPoints(s)` the point set is the old point set followed by the positions of
the elements of `s` in iteration order; its length is the old length plus the length of `s`,
so nothing is deduplicated. -/
theorem addPoints_appends_positions {α : Type} [PointTraitsN α] (e : BestFitSphere3)
    (s : List α) :
    (e.addPoints s).points = e.points ++ s.map PointTraitsN.getPosition ∧
    (e.addPoints s).points.length = e.points.length + s.length := by
  rw [BestFitSphere3.addPoints_points]
  simp

/-- C4: `addMesh(m)` appends the position of every vertex of `m` in vertex iteration order
and leaves the engine in the state that `addPoints` over the vertices of `m` leaves it in. -/
theorem addMesh_refines_addPoints (e : BestFitSphere3) (m : Mesh) :
    e.addMesh m = e.addPoints m.vertices ∧
    (e.addMesh m).points = e.points ++ m.vertices.map Vertex.getPosition := by
  refine ⟨rfl, ?_⟩
  rw [BestFitSphere3.addMesh_eq_addPoints, BestFitSphere3.addPoints_points]
  rfl

/-- C5, as stated, fails: on an engine whose cache is valid, `addPoints` over an empty
sequence, `addMesh` of a mesh without vertices and `addMeshGroup` of a hierarchy without
vertices never call `addPoint`, and the validity flag is still `true` afterwards. -/
theorem empty_input_keeps_cache_valid :
    (cleanEngine.addPoints ([] : List Vector3)).updated = true ∧
    (cleanEngine.addMesh ⟨[]⟩).updated = true ∧
    (cleanEngine.addMeshGroup emptyGroup).updated = true := by
  refine ⟨rfl, rfl, ?_⟩
  simp [emptyGroup, cleanEngine, BestFitSphere3.addMeshGroup,
    BestFitSphere3.addChildren, BestFitSphere3.addMesh]

/-- C5, amended: `addPoints`, `addMesh` and `addMeshGroup` leave the engine as it was (the
validity flag included) when the input holds no element or vertex, and otherwise leave it with
the positions appended and the validity flag `false`, whatever the flag was before. -/
theorem add_invalidates_iff_input_nonempty {α : Type} [PointTraitsN α] (e : BestFitSphere3)
    (s : List α) (m : Mesh) (g : MeshGroup) :
    (e.addPoints s =
      if s.isEmpty then e
      else { e with points := e.points ++ s.map PointTraitsN.getPosition, updated := false }) ∧
    (e.addMesh m =
      if m.vertices.isEmpty then e
      else { e with points := e.points ++ meshPositions m, updated := false }) ∧
    (e.addMeshGroup g =
      if vertexCount g = 0 then e
      else { e with points := e.points ++ preorder g, updated := false }) := by
  refine ⟨BestFitSphere3.addPoints_eq s e, ?_, ?_⟩
  · rw [BestFitSphere3.addMesh_eq_addPoints, BestFitSphere3.addPoints_eq]
    rfl
  · rw [BestFitSphere3.addMeshGroup_eq_addPoints, BestFitSphere3.addPoints_eq,
      ← length_preorder g]
    cases preorder g <;> simp [PointTraitsN.getPosition]

end Algorithms

/-! ### The driver: positional arguments -/

namespace Tools

open Algorithms

theorem parsePositional_two (args : List String) (st : Positional) (h : st.curr_opt = 2) :
    parsePositional st args =
      match args.filter fun a => !beginsWith a "--" with
      | [] => st
      | o :: _ => { st with out_path := o, curr_opt := 3 } := by
  induction args with
  | nil => rfl
  | cons a rest ih =>
    by_cases hb : beginsWith a "--" = true
    · simpa [parsePositional, hb] using ih
    · simp [parsePositional, hb, h]

theorem parsePositional_one (args : List String) (st : Positional) (h : st.curr_opt = 1) :
    parsePositional st args =
      match args.filter fun a => !beginsWith a "--" with
      | [] => st
      | [p] => { st with pts_path := p, curr_opt := 2 }
      | p :: o :: _ => { st with pts_path := p, out_path := o, curr_opt := 3 } := by
  induction args with
  | nil => rfl
  | cons a rest ih =>
    by_cases hb : beginsWith a "--" = true
    · simpa [parsePositional, hb] using ih
    · simp only [parsePositional, hb, h, List.filter_cons]
      rw [parsePositional_two rest _ rfl]
      simp
      cases List.filter (fun a => !beginsWith a "--") rest <;> rfl

theorem parsePositional_zero (args : List String) (st : Positional) (h : st.curr_opt = 0) :
    parsePositional st args =
      match args.filter fun a => !beginsWith a "--" with
      | [] => st
      | [m] => { st with mesh_path := m, curr_opt := 1 }
      | [m, p] => { st with mesh_path := m, pts_path := p, curr_opt := 2 }
      | m :: p :: o :: _ =>
        { st with mesh_path := m, pts_path := p, out_path := o, curr_opt := 3 } := by
  induction args with
  | nil => rfl
  | cons a rest ih =>
    by_cases hb : beginsWith a "--" = true
    · simpa [parsePositional, hb] using ih
    · simp only [parsePositional, hb, h, List.filter_cons]
      rw [parsePositional_one rest _ rfl]
      simp
      rcases List.filter (fun a => !beginsWith a "--") rest with _ | ⟨p, _ | ⟨o, t⟩⟩ <;> rfl

theorem featureLoop_options (ext : Externals) (mg : MeshGroup)
    (positions fn sn : List Vector3) (args : List String) (st : FeatureState) :
    featureLoop ext mg positions fn sn st args =
      featureLoop ext mg positions fn sn st (args.filter fun a => beginsWith a "--") := by
  induction args generalizing st with
  | nil => rfl
  | cons a rest ih =>
    by_cases hb : beginsWith a "--" = true
    · simp only [List.filter_cons, hb, if_true]
      rw [featureLoop, featureLoop]
      cases featureStep ext mg positions fn sn st a with
      | error e => rfl
      | ok st1 => exact ih st1
    · have hstep : featureStep ext mg positions fn sn st a = .ok st := by
        simp [featureStep, hb]
      simp only [List.filter_cons, hb]
      rw [featureLoop, hstep]
      exact ih st

theorem run_options (ext : Externals) (mesh_path pts_path out_path : String)
    (argv : List String) :
    run ext mesh_path pts_path out_path argv =
      run ext mesh_path pts_path out_path
        (argv.headD "" :: argv.tail.filter fun a => beginsWith a "--") := by
  unfold run
  simp only [List.tail_cons, ← featureLoop_options]

/-- C7: `main` goes past the usage message exactly when at least three arguments after the
program name do not begin with "--"; it then goes on with the first, second and third of
them as mesh path, points path and output path, whatever else the command line holds, and
what it goes on to do is the same with every other such argument removed; otherwise it
prints the usage and returns 0 and does nothing else. -/
theorem main_takes_first_three_positionals (ext : Externals) (argv : List String) :
    (¬ (parsePositional Positional.init argv.tail).curr_opt < 3 ↔
      3 ≤ (positionals argv).length) ∧
    main ext argv =
      match positionals argv with
      | mesh_path :: pts_path :: out_path :: _ =>
        run ext mesh_path pts_path out_path
          (argv.headD "" :: argv.tail.filter fun a => beginsWith a "--")
      | _ => ([Event.usage (argv.headD "")], Exit.code 0) := by
  unfold main positionals
  rw [parsePositional_zero argv.tail Positional.init rfl]
  rcases List.filter (fun a => !beginsWith a "--") argv.tail with _ | ⟨m, _ | ⟨p, _ | ⟨o, t⟩⟩⟩
  · simp [Positional.init]
  · simp [Positional.init]
  · simp [Positional.init]
  · simp only [List.length_cons]
    exact ⟨by simp, run_options ext m p o argv⟩

/-! ### The driver: options -/

theorem beginsWith_iff (a p : String) : beginsWith a p = true ↔ ∃ t, a.data = p.data ++ t := by
  unfold beginsWith
  rw [List.isPrefixOf_iff_prefix]
  constructor
  · rintro ⟨t, h⟩; exact ⟨t, h.symm⟩
  · rintro ⟨t, h⟩; exact ⟨t, h.symm⟩

theorem option_shape (arg : String) (h : beginsWith arg "--" = true) :
    ∃ t : List Char, arg = ⟨'-' :: '-' :: t⟩ := by
  obtain ⟨t, ht⟩ := (beginsWith_iff arg "--").1 h
  exact ⟨t, String.ext ht⟩

theorem featureCount_cons (ext : Externals) (a : String) (rest : List String) :
    featureCount ext (a :: rest) = featureCount ext [a] + featureCount ext rest := by
  simp only [featureCount, List.count_cons, List.filter_cons, List.count_nil, List.filter_nil]
  by_cases h : beginsWith a "--dh=" = true
  · simp only [h, if_true, List.map_cons, List.sum_cons, List.map_nil, List.sum_nil]
    omega
  · simp only [h, List.map_nil, List.sum_nil]
    simp
    omega

theorem mem_pushValues {features : List (List Rat)} {values : List Rat} {row : List Rat}
    (h : row ∈ pushValues features values) :
    ∃ old ∈ features, ∃ v, row = old ++ [v] := by
  simp only [pushValues, List.mem_map, List.mem_range] at h
  obtain ⟨j, hj, rfl⟩ := h
  refine ⟨features.getD j [], ?_, _, rfl⟩
  rw [List.getD_eq_getElem _ _ hj]
  exact List.getElem_mem _

theorem mem_insertRows {features : List (List Rat)} {values : Matrix} {num_bins : Int}
    {row : List Rat} (h : row ∈ insertRows features values num_bins) :
    ∃ old ∈ features, ∃ more : List Rat, more.length = num_bins.toNat ∧ row = old ++ more := by
  simp only [insertRows, List.mem_map, List.mem_range] at h
  obtain ⟨j, hj, rfl⟩ := h
  refine ⟨features.getD j [], ?_, _, ?_, rfl⟩
  · rw [List.getD_eq_getElem _ _ hj]
    exact List.getElem_mem _
  · simp

theorem featureStep_ok {ext : Externals} {mg : MeshGroup} {positions fn sn : List Vector3}
    {st st1 : FeatureState} {arg : String}
    (h : featureStep ext mg positions fn sn st arg = .ok st1) :
    (if beginsWith arg "--scale=" then ext.scanDouble (arg.data.drop 8) = some st1.scale_factor
      else st1.scale_factor = st.scale_factor) ∧
    st1.shift_to_01 = (st.shift_to_01 || decide (arg = "--shift01")) ∧
    st1.scale = (st.scale || beginsWith arg "--scale=") ∧
    st1.features.length = st.features.length ∧
    (∀ n, (∀ row ∈ st.features, row.length = n) →
      ∀ row ∈ st1.features, row.length = n + featureCount ext [arg]) := by
  by_cases h0 : beginsWith arg "--" = true
  · obtain ⟨t, rfl⟩ := option_shape arg h0
    by_cases h1 : t = ['s', 'd', 'f']
    · subst h1
      simp [featureStep, beginsWith, substr, computeSDF, pushName] at h
      subst h
      refine ⟨?_, ?_, ?_, ?_, ?_⟩
      · simp [beginsWith, List.isPrefixOf, pushName]
      · simp
      · simp [beginsWith, List.isPrefixOf]
      · simp [pushValues]
      · intro n hn row hrow
        obtain ⟨old, hold, v, rfl⟩ := mem_pushValues hrow
        simp [featureCount, hn old hold, beginsWith, List.isPrefixOf]
    · by_cases h2 : t = ['p', 'r', 'o', 'j', 'c', 'u', 'r', 'v']
      · subst h2
        simp [featureStep, beginsWith, substr, computeProjectedCurvatures, pushName] at h
        subst h
        refine ⟨?_, ?_, ?_, ?_, ?_⟩
        · simp [beginsWith, List.isPrefixOf, pushName]
        · simp
        · simp [beginsWith, List.isPrefixOf]
        · simp [pushValues]
        · intro n hn row hrow
          obtain ⟨old, hold, v, rfl⟩ := mem_pushValues hrow
          simp [featureCount, hn old hold, beginsWith, List.isPrefixOf]
      · by_cases h3 : beginsWith ⟨t⟩ "dh=" = true
        · obtain ⟨u, hu⟩ := (beginsWith_iff _ _).1 h3
          simp at hu
          subst hu
          simp [featureStep, beginsWith, substr, String.ext_iff, List.isPrefixOf] at h
          split_ifs at h
          all_goals
            simp only [Except.ok.injEq] at h
            subst h
            refine ⟨?_, ?_, ?_, ?_, ?_⟩
            · simp [beginsWith, List.isPrefixOf, pushName]
            · simp [pushName, String.ext_iff]
            · simp [pushName, beginsWith, List.isPrefixOf]
            · simp [pushName, insertRows]
            · intro n hn row hrow
              obtain ⟨old, hold, more, hlen, rfl⟩ := mem_insertRows hrow
              simp [featureCount, numBins, substr, beginsWith, List.isPrefixOf, hn old hold,
                hlen, String.ext_iff]
        · by_cases h4 : t = ['s', 'h', 'i', 'f', 't', '0', '1']
          · subst h4
            simp [featureStep, beginsWith, substr, pushName, String.ext_iff, List.isPrefixOf] at h
            subst h
            refine ⟨?_, ?_, ?_, ?_, ?_⟩
            · simp [beginsWith, List.isPrefixOf, pushName]
            · simp [String.ext_iff]
            · simp [beginsWith, List.isPrefixOf]
            · simp
            · intro n hn row hrow
              simp [featureCount, beginsWith, List.isPrefixOf, String.ext_iff]
              exact hn row hrow
          · by_cases h5 : t = ['a', 'b', 's']
            · subst h5
              simp [featureStep, beginsWith, substr, pushName, String.ext_iff,
                List.isPrefixOf] at h
              subst h
              refine ⟨?_, ?_, ?_, ?_, ?_⟩
              · simp [beginsWith, List.isPrefixOf, pushName]
              · simp [String.ext_iff]
              · simp [beginsWith, List.isPrefixOf]
              · simp
              · intro n hn row hrow
                simp [featureCount, beginsWith, List.isPrefixOf, String.ext_iff]
                exact hn row hrow
            · by_cases h6 : beginsWith ⟨t⟩ "scale=" = true
              · obtain ⟨u, hu⟩ := (beginsWith_iff _ _).1 h6
                simp at hu
                subst hu
                simp [featureStep, beginsWith, substr, String.ext_iff, List.isPrefixOf] at h
                split_ifs at h with hc
                simp only [Except.ok.injEq] at h
                subst h
                refine ⟨?_, ?_, ?_, ?_, ?_⟩
                · simp only [scanScale, h6, if_true, String.data, List.drop] at hc ⊢
                  cases hd : ext.scanDouble u <;>
                    simp [hd, beginsWith, List.isPrefixOf, pushName] at hc ⊢
                · simp [pushName, String.ext_iff]
                · simp [pushName, beginsWith, List.isPrefixOf]
                · simp [pushName]
                · intro n hn row hrow
                  simp [featureCount, beginsWith, List.isPrefixOf, String.ext_iff]
                  exact hn row hrow
              · have e1 : (⟨t⟩ : String) ≠ "sdf" := fun e => h1 (congrArg String.data e)
                have e2 : (⟨t⟩ : String) ≠ "projcurv" := fun e => h2 (congrArg String.data e)
                have e4 : (⟨t⟩ : String) ≠ "shift01" := fun e => h4 (congrArg String.data e)
                have e5 : (⟨t⟩ : String) ≠ "abs" := fun e => h5 (congrArg String.data e)
                simp [featureStep, h0, substr, e1, e2, h3, e4, e5, h6] at h
                subst h
                refine ⟨?_, ?_, ?_, rfl, ?_⟩
                · simp only [beginsWith] at h6 ⊢
                  simp at h6 ⊢
                  exact fun hc => absurd hc h6
                · simp [String.ext_iff, h4]
                · simp only [beginsWith] at h6 ⊢
                  simp at h6 ⊢
                  exact fun hc => absurd hc h6
                · intro n hn row hrow
                  simp only [beginsWith] at h3
                  simp [featureCount, List.count_cons, String.ext_iff, h1, h2, beginsWith, h3]
                  exact hn row hrow
  · have hp : ∀ p : String, beginsWith arg ("--" ++ p) = true → False := by
      intro p hpre
      obtain ⟨u, hu⟩ := (beginsWith_iff _ _).1 hpre
      exact h0 ((beginsWith_iff _ _).2 ⟨p.data ++ u, by simpa using hu⟩)
    have hq : ∀ p : String, arg = "--" ++ p → False := by
      intro p e
      exact hp p ((beginsWith_iff _ _).2 ⟨[], by simp [e]⟩)
    simp [featureStep, h0] at h
    subst h
    have n1 : arg ≠ "--shift01" := fun e => hq "shift01" e
    have n2 : arg ≠ "--sdf" := fun e => hq "sdf" e
    have n3 : arg ≠ "--projcurv" := fun e => hq "projcurv" e
    have n4 : beginsWith arg "--scale=" = false := by
      cases hb : beginsWith arg "--scale=" with
      | false => rfl
      | true => exact (hp "scale=" hb).elim
    have n5 : beginsWith arg "--dh=" = false := by
      cases hb : beginsWith arg "--dh=" with
      | false => rfl
      | true => exact (hp "dh=" hb).elim
    refine ⟨by simp [n4], by simp [n1], by simp [n4], rfl, ?_⟩
    intro n hn row hrow
    simp [featureCount, List.count_cons, n2, n3, n5]
    exact hn row hrow

theorem featureLoop_ok {ext : Externals} {mg : MeshGroup} {positions fn sn : List Vector3} :
    ∀ (args : List String) (st st1 : FeatureState),
      featureLoop ext mg positions fn sn st args = .ok st1 →
      (match (args.filter fun a => beginsWith a "--scale=").getLast? with
        | none => st1.scale_factor = st.scale_factor
        | some a => ext.scanDouble (a.data.drop 8) = some st1.scale_factor) ∧
      st1.shift_to_01 = (st.shift_to_01 || decide ("--shift01" ∈ args)) ∧
      st1.scale = (st.scale || args.any fun a => beginsWith a "--scale=") ∧
      st1.features.length = st.features.length ∧
      (∀ n, (∀ row ∈ st.features, row.length = n) →
        ∀ row ∈ st1.features, row.length = n + featureCount ext args)
  | [], st, st1, h => by
    simp only [featureLoop, Except.ok.injEq] at h
    subst h
    simp [featureCount]
  | arg :: rest, st, st1, h => by
    rw [featureLoop] at h
    cases hs : featureStep ext mg positions fn sn st arg with
    | error e => rw [hs] at h; cases h
    | ok st2 =>
      rw [hs] at h
      obtain ⟨a0, a1, a2, a3, a4⟩ := featureStep_ok hs
      obtain ⟨b0, b1, b2, b3, b4⟩ := featureLoop_ok rest st2 st1 h
      refine ⟨?_, ?_, ?_, ?_, ?_⟩
      · by_cases hp : beginsWith arg "--scale=" = true
        · simp only [hp, if_true] at a0
          simp only [List.filter_cons, hp, if_true]
          rcases hl : List.filter (fun a => beginsWith a "--scale=") rest with _ | ⟨x, xs⟩
          · rw [hl] at b0
            simp only [List.getLast?_nil] at b0
            simpa [b0] using a0
          · rw [hl] at b0
            simpa using b0
        · have a0' : st2.scale_factor = st.scale_factor := by simpa [hp] using a0
          have hf : List.filter (fun a => beginsWith a "--scale=") (arg :: rest) =
              List.filter (fun a => beginsWith a "--scale=") rest := by
            simp [List.filter_cons, hp]
          rw [hf]
          cases hl : (List.filter (fun a => beginsWith a "--scale=") rest).getLast? with
          | none =>
            rw [hl] at b0
            show st1.scale_factor = st.scale_factor
            exact Eq.trans b0 a0'
          | some x =>
            rw [hl] at b0
            exact b0
      · rw [b1, a1]
        by_cases e : arg = "--shift01"
        · simp [e]
        · have e2 : ¬ "--shift01" = arg := fun x => e x.symm
          simp [e, e2, List.mem_cons]
      · rw [b2, a2, List.any_cons, Bool.or_assoc]
      · rw [b3, a3]
      · intro n hn row hrow
        rw [featureCount_cons, ← Nat.add_assoc]
        exact b4 _ (a4 n hn) row hrow

theorem snap_length (ext : Externals) (mg : MeshGroup) :
    ∀ (pts : List Vector3) (snapped : List (Vector3 × Vector3 × Vector3)),
      snap ext mg pts = some snapped → snapped.length = pts.length
  | [], snapped, h => by
    simp only [snap, Option.some.injEq] at h
    subst h
    rfl
  | p :: rest, snapped, h => by
    rw [snap] at h
    cases hc : ext.closestElement mg p with
    | none => rw [hc] at h; cases h
    | some c =>
      rw [hc] at h
      cases hr : snap ext mg rest with
      | none => rw [hr] at h; cases h
      | some more =>
        rw [hr] at h
        simp only [Option.some.injEq] at h
        subst h
        simp [snap_length ext mg rest more hr]

theorem outputRows_fst (ext : Externals) (st : FeatureState) (pts : List Vector3)
    (h : st.features.length = pts.length) : (outputRows ext st pts).map Prod.fst = pts := by
  apply List.ext_getElem
  · simp [outputRows, h]
  · intro i h1 h2
    simp [outputRows, List.getD_eq_getElem?_getD]
    have hi : i < pts.length := by simpa [outputRows, h] using h1
    simp [List.getElem?_eq_getElem hi]

theorem outputRows_snd (ext : Externals) (st : FeatureState) (pts : List Vector3) :
    (outputRows ext st pts).map Prod.snd = st.features.map (List.map (outputValue ext st)) := by
  apply List.ext_getElem
  · simp [outputRows]
  · intro i h1 h2
    have hi : i < st.features.length := by simpa [outputRows] using h1
    simp [outputRows, List.getD_eq_getElem?_getD, List.getElem?_eq_getElem hi]

theorem scaled_eq {ext : Externals} {mg : MeshGroup} {positions fn sn : List Vector3}
    {args : List String} {st : FeatureState} {n : Nat}
    (h : featureLoop ext mg positions fn sn (FeatureState.init n) args = .ok st) (f : Rat) :
    (if st.scale then ext.round (f * st.scale_factor) else f) = scaledValue ext args f := by
  obtain ⟨b0, -, b2, -, -⟩ := featureLoop_ok args _ st h
  unfold scaledValue scaleFactor
  cases hl : (List.filter (fun a => beginsWith a "--scale=") args).getLast? with
  | none =>
    have hnil : List.filter (fun a => beginsWith a "--scale=") args = [] :=
      List.getLast?_eq_none_iff.1 hl
    have hany : (args.any fun a => beginsWith a "--scale=") = false := by
      rw [List.any_eq_false]
      intro a ha hb
      have : a ∈ List.filter (fun a => beginsWith a "--scale=") args :=
        List.mem_filter.2 ⟨ha, hb⟩
      rw [hnil] at this
      cases this
    have hsc : st.scale = false := by simp [b2, hany, FeatureState.init]
    simp [hsc]
  | some a =>
    rw [hl] at b0
    have hmem := List.mem_of_getLast?_eq_some hl
    obtain ⟨ha, hb⟩ := List.mem_filter.1 hmem
    have hany : (args.any fun a => beginsWith a "--scale=") = true :=
      List.any_eq_true.2 ⟨a, ha, hb⟩
    have hsc : st.scale = true := by simp [b2, hany]
    have b0' : ext.scanDouble (List.drop 8 a.data) = some st.scale_factor := b0
    simp [hsc, b0']

theorem scaledValue_of_no_scale (ext : Externals) (args : List String)
    (h : ∀ a ∈ args, beginsWith a "--scale=" = false) (f : Rat) :
    scaledValue ext args f = f := by
  have hnil : List.filter (fun a => beginsWith a "--scale=") args = [] := by
    rw [List.filter_eq_nil_iff]
    intro a ha
    simp [h a ha]
  simp [scaledValue, scaleFactor, hnil]

theorem outputValue_shifted (ext : Externals) (st : FeatureState)
    (hmono : ∀ x y : Rat, x ≤ y → ext.round x ≤ ext.round y)
    (h0 : ext.round 0 = 0) (h1 : ext.round 1 = 1) (h2 : ext.round 2 = 2)
    (hs : st.shift_to_01 = true) (f : Rat)
    (hlo : -1 ≤ (if st.scale then ext.round (f * st.scale_factor) else f))
    (hhi : (if st.scale then ext.round (f * st.scale_factor) else f) ≤ 1) :
    outputValue ext st f =
      ext.round (1 / 2 * ext.round
        (1 + if st.scale then ext.round (f * st.scale_factor) else f)) ∧
    0 ≤ outputValue ext st f ∧ outputValue ext st f ≤ 1 := by
  have s0 : 0 ≤ ext.round (1 + if st.scale then ext.round (f * st.scale_factor) else f) := by
    have := hmono 0 _ (by linarith : (0 : Rat) ≤
      1 + if st.scale then ext.round (f * st.scale_factor) else f)
    rwa [h0] at this
  have s2 : ext.round (1 + if st.scale then ext.round (f * st.scale_factor) else f) ≤ 2 := by
    have := hmono _ 2 (by linarith :
      (1 + if st.scale then ext.round (f * st.scale_factor) else f) ≤ (2 : Rat))
    rwa [h2] at this
  have p0 : 0 ≤ ext.round (1 / 2 * ext.round
      (1 + if st.scale then ext.round (f * st.scale_factor) else f)) := by
    have := hmono 0 _ (by linarith : (0 : Rat) ≤ 1 / 2 * ext.round
      (1 + if st.scale then ext.round (f * st.scale_factor) else f))
    rwa [h0] at this
  have p1 : ext.round (1 / 2 * ext.round
      (1 + if st.scale then ext.round (f * st.scale_factor) else f)) ≤ 1 := by
    have := hmono _ 1 (by linarith : 1 / 2 * ext.round
      (1 + if st.scale then ext.round (f * st.scale_factor) else f) ≤ (1 : Rat))
    rwa [h1] at this
  have e : outputValue ext st f = ext.round (1 / 2 * ext.round
      (1 + if st.scale then ext.round (f * st.scale_factor) else f)) := by
    simp only [outputValue, hs, if_true]
    by_cases ha : st.abs_values = true
    · simp only [ha, if_true]
      exact abs_of_nonneg p0
    · simp [ha]
  rw [e]
  exact ⟨rfl, p0, p1⟩

theorem sampleRound_mono (x y : Rat) (h : x ≤ y) : sampleRound x ≤ sampleRound y := by
  unfold sampleRound
  have hf : ⌊x * 2 ^ 52 + 1 / 2⌋ ≤ ⌊y * 2 ^ 52 + 1 / 2⌋ := Int.floor_mono (by linarith)
  have hq : ((⌊x * 2 ^ 52 + 1 / 2⌋ : Int) : Rat) ≤ (⌊y * 2 ^ 52 + 1 / 2⌋ : Int) := by
    exact_mod_cast hf
  exact div_le_div_of_nonneg_right hq (by positivity)

theorem sampleRound_grid (m : Int) : sampleRound (m / 2 ^ 52) = m / 2 ^ 52 := by
  unfold sampleRound
  have e : ((m : Rat) / 2 ^ 52 * 2 ^ 52 + 1 / 2) = (m : Rat) + 1 / 2 := by field_simp
  have hhalf : ⌊(1 / 2 : Rat)⌋ = 0 := by
    rw [Int.floor_eq_iff]
    norm_num
  rw [e, Int.floor_int_add, hhalf]
  simp

theorem sampleRound_int (n : Int) : sampleRound n = n := by
  have := sampleRound_grid (n * 2 ^ 52)
  have e : ((n * 2 ^ 52 : Int) : Rat) / 2 ^ 52 = n := by
    push_cast
    exact mul_div_cancel_right₀ _ (by positivity)
  rwa [e] at this

theorem sampleRound_half (n : Int) : sampleRound (n / 2) = n / 2 := by
  have := sampleRound_grid (n * 2 ^ 51)
  have e : ((n * 2 ^ 51 : Int) : Rat) / 2 ^ 52 = n / 2 := by
    push_cast
    field_simp
    ring
  rwa [e] at this

theorem sampleRound_quarter (n : Int) : sampleRound (n / 4) = n / 4 := by
  have := sampleRound_grid (n * 2 ^ 50)
  have e : ((n * 2 ^ 50 : Int) : Rat) / 2 ^ 52 = n / 4 := by
    push_cast
    field_simp
    ring
  rwa [e] at this

/-- C8, as stated, fails: with `--sdf --shift01 --scale=3` the feature value `1`, which lies
in `[-1, 1]`, is written as `2`, which does not lie in `[0, 1]`. -/
theorem shift01_after_scale_leaves_unit_interval :
    main sampleExternals
        ["MeshFeatures", "mesh.off", "pts.txt", "out.txt", "--sdf", "--shift01", "--scale=3"] =
      ([Event.loadMesh "mesh.off", Event.readPoints "pts.txt",
        Event.computed 3 ["sdf", "shift01", "scale=3"], Event.openOutput "out.txt",
        Event.wrote [(⟨0, 0, 0⟩, [2])]], Exit.code 0) ∧
    sampleExternals.shapeDiameter sampleGroup ⟨0, 0, 0⟩ ⟨0, 0, 1⟩ = 1 ∧
    ¬ ((2 : Rat) ≤ 1) := by
  have h : outputValue sampleExternals
      ⟨[[1]], ["sdf", "shift01", "scale=3"], true, false, true, 3⟩ 1 = 2 := by
    have e3 : sampleRound 3 = 3 := by simpa using sampleRound_int 3
    have e4 : sampleRound (1 + 3) = 4 := by
      have := sampleRound_int 4
      norm_num at this ⊢
      exact this
    have e2 : sampleRound (1 / 2 * 4) = 2 := by
      have := sampleRound_int 2
      norm_num at this ⊢
      exact this
    simp only [outputValue, sampleExternals, if_true, one_mul, e3, e4, e2]
    rfl
  refine ⟨?_, rfl, by norm_num⟩
  rw [← h]
  rfl

/-- C9 at the command line `--sdf --shift01`: every feature vector holds one value, and
`main` reports two computed features, `sdf` and `shift01`. -/
theorem shift01_is_counted_as_a_feature :
    main sampleExternals
        ["MeshFeatures", "mesh.off", "pts.txt", "out.txt", "--sdf", "--shift01"] =
      ([Event.loadMesh "mesh.off", Event.readPoints "pts.txt",
        Event.computed 2 ["sdf", "shift01"], Event.openOutput "out.txt",
        Event.wrote [(⟨0, 0, 0⟩, [1])]], Exit.code 0) := by
  have h : outputValue sampleExternals ⟨[[1]], ["sdf", "shift01"], true, false, false, 1⟩ 1
      = 1 := by
    have e2 : sampleRound 2 = 2 := by simpa using sampleRound_int 2
    have e1 : sampleRound 1 = 1 := by simpa using sampleRound_int 1
    norm_num [outputValue, sampleExternals, e2, e1]
  rw [← h]
  rfl

/-- C8, amended: when `--shift01` is among the options and `main` reaches the output stage,
it writes one row per query point and one value per feature value, and the value shifted is
the feature value after scaling. With `g` the `double` product of the feature value `f` and
the factor of the last `--scale=` option (`g = f` when there is no such option): if
`-1 <= g <= 1`, the value written for `f` is `0.5 * (1.0 + g)` as `double` arithmetic
computes it, and it lies in `[0, 1]`, with or without `--abs` and whatever the feature
options are. The rounding of `double` arithmetic is any rounding that is monotone and leaves
`0`, `1` and `2` as they are. -/
theorem shift01_maps_scaled_value_to_unit_interval (ext : Externals)
    (mesh_path pts_path out_path : String) (argv : List String) (mg : MeshGroup)
    (pts : List Vector3) (snapped : List (Vector3 × Vector3 × Vector3)) (st : FeatureState)
    (hmono : ∀ x y : Rat, x ≤ y → ext.round x ≤ ext.round y)
    (h0 : ext.round 0 = 0) (h1 : ext.round 1 = 1) (h2 : ext.round 2 = 2)
    (hload : ext.load mesh_path = some mg)
    (hpts : ext.readPoints pts_path = some pts)
    (hsnap : snap ext mg pts = some snapped)
    (hloop : featureLoop ext mg (snapped.map fun s => s.1) (snapped.map fun s => s.2.1)
      (snapped.map fun s => s.2.2) (FeatureState.init (snapped.map fun s => s.1).length)
      argv.tail = .ok st)
    (hopen : ext.openOutput out_path = true)
    (hshift : "--shift01" ∈ argv.tail) :
    ∃ rows : List (Vector3 × List Rat),
      run ext mesh_path pts_path out_path argv =
        ([Event.loadMesh mesh_path, Event.readPoints pts_path,
          Event.computed st.feat_names.length st.feat_names, Event.openOutput out_path,
          Event.wrote rows], Exit.code 0) ∧
      rows.map Prod.fst = pts ∧
      List.Forall₂
        (fun (fs : List Rat) (row : Vector3 × List Rat) =>
          List.Forall₂
            (fun (f w : Rat) =>
              -1 ≤ scaledValue ext argv.tail f → scaledValue ext argv.tail f ≤ 1 →
                w = ext.round (1 / 2 * ext.round (1 + scaledValue ext argv.tail f)) ∧
                0 ≤ w ∧ w ≤ 1)
            fs row.2)
        st.features rows ∧
      ((∀ a ∈ argv.tail, beginsWith a "--scale=" = false) →
        ∀ f : Rat, scaledValue ext argv.tail f = f) := by
  obtain ⟨-, b1, -, b3, -⟩ := featureLoop_ok argv.tail _ st hloop
  have hs : st.shift_to_01 = true := by simp [b1, hshift]
  have hlen : st.features.length = pts.length := by
    rw [b3]
    simp [FeatureState.init, snap_length ext mg pts snapped hsnap]
  refine ⟨outputRows ext st pts, ?_, outputRows_fst ext st pts hlen, ?_,
    fun hno f => scaledValue_of_no_scale ext argv.tail hno f⟩
  · unfold run
    simp only [hload, hpts, hsnap]
    rw [hloop]
    simp [hopen]
  · rw [← List.forall₂_map_right_iff, outputRows_snd, List.forall₂_map_right_iff,
      List.forall₂_same]
    intro fs _
    rw [List.forall₂_map_right_iff, List.forall₂_same]
    intro f _ hlo hhi
    have e := scaled_eq hloop f
    rw [← e] at hlo hhi ⊢
    exact outputValue_shifted ext st hmono h0 h1 h2 hs f hlo hhi

/-- C8, amended, at the command line `--projcurv --scale=0.5 --shift01` and one query point
of projected curvature `-1`: the scaled value is `-0.5` and the value written is `0.25`. -/
theorem shift01_maps_scaled_value_to_unit_interval_witness :
    ((∀ x y : Rat, x ≤ y → sampleExternals.round x ≤ sampleExternals.round y) ∧
      sampleExternals.round 0 = 0 ∧ sampleExternals.round 1 = 1 ∧
      sampleExternals.round 2 = 2 ∧
      sampleExternals.load "mesh.off" = some sampleGroup ∧
      sampleExternals.readPoints "pts.txt" = some [⟨0, 0, 0⟩] ∧
      snap sampleExternals sampleGroup [⟨0, 0, 0⟩] = some sampleSnapped ∧
      featureLoop sampleExternals sampleGroup (sampleSnapped.map fun s => s.1)
        (sampleSnapped.map fun s => s.2.1) (sampleSnapped.map fun s => s.2.2)
        (FeatureState.init (sampleSnapped.map fun s => s.1).length) shiftArgv.tail
        = .ok shiftState ∧
      sampleExternals.openOutput "out.txt" = true ∧
      "--shift01" ∈ shiftArgv.tail) ∧
    run sampleExternals "mesh.off" "pts.txt" "out.txt" shiftArgv =
      ([Event.loadMesh "mesh.off", Event.readPoints "pts.txt",
        Event.computed 3 ["projcurv", "scale=0.5", "shift01"], Event.openOutput "out.txt",
        Event.wrote [(⟨0, 0, 0⟩, [1 / 4])]], Exit.code 0) ∧
    scaledValue sampleExternals shiftArgv.tail (-1) = -1 / 2 ∧
    (∃ rows : List (Vector3 × List Rat),
      run sampleExternals "mesh.off" "pts.txt" "out.txt" shiftArgv =
        ([Event.loadMesh "mesh.off", Event.readPoints "pts.txt",
          Event.computed shiftState.feat_names.length shiftState.feat_names,
          Event.openOutput "out.txt", Event.wrote rows], Exit.code 0) ∧
      rows.map Prod.fst = [⟨0, 0, 0⟩] ∧
      List.Forall₂
        (fun (fs : List Rat) (row : Vector3 × List Rat) =>
          List.Forall₂
            (fun (f w : Rat) =>
              -1 ≤ scaledValue sampleExternals shiftArgv.tail f →
              scaledValue sampleExternals shiftArgv.tail f ≤ 1 →
                w = sampleExternals.round
                    (1 / 2 * sampleExternals.round
                      (1 + scaledValue sampleExternals shiftArgv.tail f)) ∧
                0 ≤ w ∧ w ≤ 1)
            fs row.2)
        shiftState.features rows ∧
      ((∀ a ∈ shiftArgv.tail, beginsWith a "--scale=" = false) →
        ∀ f : Rat, scaledValue sampleExternals shiftArgv.tail f = f)) := by
  have r0 : sampleExternals.round 0 = 0 := by simpa using sampleRound_int 0
  have r1 : sampleExternals.round 1 = 1 := by simpa using sampleRound_int 1
  have r2 : sampleExternals.round 2 = 2 := by simpa using sampleRound_int 2
  have eh : sampleRound (-1 * (1 / 2)) = -1 / 2 := by
    have := sampleRound_half (-1)
    norm_num at this ⊢
    exact this
  have hsv : scaledValue sampleExternals shiftArgv.tail (-1) = -1 / 2 := by
    have hf : scaleFactor sampleExternals shiftArgv.tail = some (1 / 2) := by rfl
    simp only [scaledValue, hf]
    exact eh
  have hv : outputValue sampleExternals shiftState (-1) = 1 / 4 := by
    have e1 : sampleRound (1 + -1 / 2) = 1 / 2 := by
      have := sampleRound_half 1
      norm_num at this ⊢
      exact this
    have e2 : sampleRound (1 / 2 * (1 / 2)) = 1 / 4 := by
      have := sampleRound_quarter 1
      norm_num at this ⊢
      exact this
    simp only [outputValue, sampleExternals, shiftState, if_true, eh, e1, e2]
    rfl
  refine ⟨⟨sampleRound_mono, r0, r1, r2, rfl, rfl, rfl, rfl, rfl, by decide⟩, ?_, hsv,
    shift01_maps_scaled_value_to_unit_interval sampleExternals "mesh.off" "pts.txt" "out.txt"
      shiftArgv sampleGroup [⟨0, 0, 0⟩] sampleSnapped shiftState sampleRound_mono r0 r1 r2
      rfl rfl rfl rfl rfl (by decide)⟩
  rw [← hv]
  rfl

/-- Every feature vector has the same length after the feature loop: the number of `--sdf`
options plus the number of `--projcurv` options plus the sum of `num_bins` over the `--dh=`
options; there is one feature vector per query point. -/
theorem feature_vectors_have_feature_count_values (ext : Externals) (mg : MeshGroup)
    (positions face_normals smooth_normals : List Vector3) (args : List String)
    (st : FeatureState)
    (hrun : featureLoop ext mg positions face_normals smooth_normals
      (FeatureState.init positions.length) args = .ok st) :
    st.features.length = positions.length ∧
    ∀ row ∈ st.features, row.length = featureCount ext args := by
  obtain ⟨-, -, -, b3, b4⟩ := featureLoop_ok args _ st hrun
  refine ⟨by simp [b3, FeatureState.init], fun row hrow => ?_⟩
  have := b4 0 (by simp [FeatureState.init]) row hrow
  simpa using this

/-- The feature vector of the one query point has three values at the command line
`--dh=2 --sdf --abs`. -/
theorem feature_vectors_have_feature_count_values_witness :
    featureLoop sampleExternals sampleGroup [⟨0, 0, 0⟩] [⟨0, 0, 1⟩] [⟨0, 0, 1⟩]
      (FeatureState.init [(⟨0, 0, 0⟩ : Vector3)].length) histogramArgs = .ok histogramState ∧
    (histogramState.features.length = [(⟨0, 0, 0⟩ : Vector3)].length ∧
      ∀ row ∈ histogramState.features, row.length = featureCount sampleExternals histogramArgs) :=
  ⟨rfl, feature_vectors_have_feature_count_values sampleExternals sampleGroup [⟨0, 0, 0⟩]
    [⟨0, 0, 1⟩] [⟨0, 0, 1⟩] histogramArgs histogramState rfl⟩

end Tools
end Thea
